import Mathlib

/-!
Verification of the eUSB2 repeater driver
(src/kernel_platform/msm-kernel/drivers/usb/repeater/repeater-i2c-eusb2.c).

The driver is shallowly embedded: each C function relevant to a claim is
translated into a Lean definition over explicit state and an oracle for the
external environment (regulator framework results, regmap bus results).
Machine bytes are `Nat` with `% 256` where the C code truncates.
-/

namespace Eusb2

/-! ## Constants (from the `#define` block at the top of the file) -/

def EUSB2_3P0_VOL_MIN : Int := 3075000
def EUSB2_3P0_VOL_MAX : Int := 3300000
def EUSB2_3P0_HPM_LOAD : Int := 3500
def EUSB2_1P8_VOL_MIN : Int := 1800000
def EUSB2_1P8_VOL_MAX : Int := 1800000
def EUSB2_1P8_HPM_LOAD : Int := 32000
def EINVAL : Int := 22
def TUNE_BUF_COUNT : Nat := 20

/-! ## Power sequencer (`eusb2_repeater_power`, lines 393-492)

The two regulators are `vdd18` (rail A, 1.8 V) and `vdd3` (rail B, 3.0 V).
Each call into the regulator framework is recorded as a `RailOp`; the
environment is an oracle `o : RailOp → Int` giving each call's return value
(each distinct operation occurs at most once per `eusb2_repeater_power` call,
so keying the oracle on the operation itself is faithful). The function
returns the C `return` value, the final `power_enabled` flag, and the trace
of regulator calls made, in order. -/

inductive Rail
  | vdd18
  | vdd3
  deriving DecidableEq

inductive RailOp
  | setLoad (r : Rail) (load : Int)
  | setVoltage (r : Rail) (vmin vmax : Int)
  | enable (r : Rail)
  | disable (r : Rail)
  deriving DecidableEq

/-- Label `err_vdd18`: `er->power_enabled = false; return ret;`. -/
def label_err_vdd18 (ret : Int) (tr : List RailOp) : Int × Bool × List RailOp :=
  (ret, false, tr)

/-- The code between label `put_vdd18_lpm` and label `err_vdd18`:
`ret = regulator_set_load(er->vdd18, 0);` (logged only), then
`if (!er->power_enabled) return -EINVAL;`, then fall through to
`err_vdd18`. -/
def label_put_vdd18_lpm (o : RailOp → Int) (pe : Bool) (tr : List RailOp) :
    Int × Bool × List RailOp :=
  let op := RailOp.setLoad Rail.vdd18 0
  let ret := o op
  if !pe then (-EINVAL, pe, tr ++ [op])
  else label_err_vdd18 ret (tr ++ [op])

/-- Label `unset_vdd18`: `regulator_set_voltage(er->vdd18, 0, EUSB2_1P8_VOL_MAX)`
(result logged only), fall through to `put_vdd18_lpm`. -/
def label_unset_vdd18 (o : RailOp → Int) (pe : Bool) (tr : List RailOp) :
    Int × Bool × List RailOp :=
  let op := RailOp.setVoltage Rail.vdd18 0 EUSB2_1P8_VOL_MAX
  let _ := o op
  label_put_vdd18_lpm o pe (tr ++ [op])

/-- Label `disable_vdd18`: `regulator_disable(er->vdd18)` (logged only),
fall through to `unset_vdd18`. -/
def label_disable_vdd18 (o : RailOp → Int) (pe : Bool) (tr : List RailOp) :
    Int × Bool × List RailOp :=
  let op := RailOp.disable Rail.vdd18
  let _ := o op
  label_unset_vdd18 o pe (tr ++ [op])

/-- Label `put_vdd3_lpm`: `regulator_set_load(er->vdd3, 0)` (logged only),
fall through to `disable_vdd18`. -/
def label_put_vdd3_lpm (o : RailOp → Int) (pe : Bool) (tr : List RailOp) :
    Int × Bool × List RailOp :=
  let op := RailOp.setLoad Rail.vdd3 0
  let _ := o op
  label_disable_vdd18 o pe (tr ++ [op])

/-- Label `unset_vdd3`: `regulator_set_voltage(er->vdd3, 0, EUSB2_3P0_VOL_MAX)`
(logged only), fall through to `put_vdd3_lpm`. -/
def label_unset_vdd3 (o : RailOp → Int) (pe : Bool) (tr : List RailOp) :
    Int × Bool × List RailOp :=
  let op := RailOp.setVoltage Rail.vdd3 0 EUSB2_3P0_VOL_MAX
  let _ := o op
  label_put_vdd3_lpm o pe (tr ++ [op])

/-- Label `disable_vdd3`: `regulator_disable(er->vdd3)` (logged only),
fall through to `unset_vdd3`. -/
def label_disable_vdd3 (o : RailOp → Int) (pe : Bool) (tr : List RailOp) :
    Int × Bool × List RailOp :=
  let op := RailOp.disable Rail.vdd3
  let _ := o op
  label_unset_vdd3 o pe (tr ++ [op])

/-- `eusb2_repeater_power(er, on)` with `pe = er->power_enabled` on entry and
`on'` standing for the C parameter `on`.
Returns `(return value, er->power_enabled on exit, regulator-call trace)`. -/
def eusb2_repeater_power (o : RailOp → Int) (pe : Bool) (on' : Bool) :
    Int × Bool × List RailOp :=
  if pe = on' then (0, pe, [])
  else if !on' then label_disable_vdd3 o pe []
  else
    let op1 := RailOp.setLoad Rail.vdd18 EUSB2_1P8_HPM_LOAD
    let r1 := o op1
    if r1 < 0 then label_err_vdd18 r1 [op1]
    else
      let op2 := RailOp.setVoltage Rail.vdd18 EUSB2_1P8_VOL_MIN EUSB2_1P8_VOL_MAX
      let r2 := o op2
      if r2 ≠ 0 then label_put_vdd18_lpm o pe [op1, op2]
      else
        let op3 := RailOp.enable Rail.vdd18
        let r3 := o op3
        if r3 ≠ 0 then label_unset_vdd18 o pe [op1, op2, op3]
        else
          let op4 := RailOp.setLoad Rail.vdd3 EUSB2_3P0_HPM_LOAD
          let r4 := o op4
          if r4 < 0 then label_disable_vdd18 o pe [op1, op2, op3, op4]
          else
            let op5 := RailOp.setVoltage Rail.vdd3 EUSB2_3P0_VOL_MIN EUSB2_3P0_VOL_MAX
            let r5 := o op5
            if r5 ≠ 0 then label_put_vdd3_lpm o pe [op1, op2, op3, op4, op5]
            else
              let op6 := RailOp.enable Rail.vdd3
              let r6 := o op6
              if r6 ≠ 0 then label_unset_vdd3 o pe [op1, op2, op3, op4, op5, op6]
              else (r6, true, [op1, op2, op3, op4, op5, op6])

/-- The six ordered power-up steps (spec steps 1-6), indexed from 0. -/
def upStep : Nat → RailOp
  | 0 => RailOp.setLoad Rail.vdd18 EUSB2_1P8_HPM_LOAD
  | 1 => RailOp.setVoltage Rail.vdd18 EUSB2_1P8_VOL_MIN EUSB2_1P8_VOL_MAX
  | 2 => RailOp.enable Rail.vdd18
  | 3 => RailOp.setLoad Rail.vdd3 EUSB2_3P0_HPM_LOAD
  | 4 => RailOp.setVoltage Rail.vdd3 EUSB2_3P0_VOL_MIN EUSB2_3P0_VOL_MAX
  | _ => RailOp.enable Rail.vdd3

/-- The undo operation the unwind chain performs for each power-up step. -/
def undoStep : Nat → RailOp
  | 0 => RailOp.setLoad Rail.vdd18 0
  | 1 => RailOp.setVoltage Rail.vdd18 0 EUSB2_1P8_VOL_MAX
  | 2 => RailOp.disable Rail.vdd18
  | 3 => RailOp.setLoad Rail.vdd3 0
  | 4 => RailOp.setVoltage Rail.vdd3 0 EUSB2_3P0_VOL_MAX
  | _ => RailOp.disable Rail.vdd3

/-- Whether step `k` of power-up fails under oracle `o`: `regulator_set_load`
results are checked with `ret < 0`, `regulator_set_voltage` and
`regulator_enable` with `ret != 0`, exactly as in the C code. -/
def stepFails (o : RailOp → Int) (k : Nat) : Prop :=
  if k = 0 ∨ k = 3 then o (upStep k) < 0 else o (upStep k) ≠ 0

instance (o : RailOp → Int) (k : Nat) : Decidable (stepFails o k) := by
  unfold stepFails
  split <;> infer_instance

/-- Expected trace of a power-up that first fails at step `k`: the attempted
steps `0..k` followed by the undo of steps `k-1, ..., 0` in reverse order. -/
def failTrace (k : Nat) : List RailOp :=
  (List.range (k + 1)).map upStep ++ ((List.range k).reverse.map undoStep)

/-- Oracle under which power-up step 2 (`regulator_set_voltage` on vdd18,
spec step "set voltage window of rail A") fails with `-5` and every other
regulator call succeeds. -/
def oFailSetVoltA : RailOp → Int := fun op => if op = upStep 1 then -5 else 0

/-- Oracle under which power-up step 3 (`regulator_enable` on vdd18) fails
with `-5` and every other regulator call succeeds. -/
def oFailEnableA : RailOp → Int := fun op => if op = upStep 2 then -5 else 0

/-- Oracle under which power-up step 1 (`regulator_set_load` on vdd18) fails
with `-7` and every other regulator call succeeds. -/
def oFailLoadA : RailOp → Int := fun op => if op = upStep 0 then -7 else 0

/-! ## Register accessor (`eusb2_i2c_read_reg` / `eusb2_i2c_write_reg`,
lines 183-219)

The regmap bus is an oracle: `read reg` yields `(return value, raw value)`
(the raw value is what `regmap_read` stores into its `unsigned int` output;
the C code then truncates it into a `u8`), and `write reg val` yields the
return value. Each `regmap` call made is recorded as a `BusOp`. -/

structure Regmap where
  read : Nat → Int × Nat
  write : Nat → Nat → Int

inductive BusOp
  | read (reg : Nat)
  | write (reg : Nat) (val : Nat)
  deriving DecidableEq

/-- `eusb2_i2c_read_reg`: on regmap failure return the error and leave the
output byte unset (`none`); on success store the value truncated to a `u8`
and return 0. -/
def eusb2_i2c_read_reg (m : Regmap) (reg : Nat) : Int × Option Nat :=
  let p := m.read reg
  if p.1 < 0 then (p.1, none) else (0, some (p.2 % 256))

/-- `eusb2_i2c_write_reg(er, reg, mask, val)`: read the current register
value; on read failure return that error without writing; otherwise compute
`val |= reg_val & mask` and write it, returning the write's error or 0.
The second component is the trace of regmap calls made. -/
def eusb2_i2c_write_reg (m : Regmap) (reg mask val : Nat) : Int × List BusOp :=
  match eusb2_i2c_read_reg m reg with
  | (ret, none) => (ret, [BusOp.read reg])
  | (_, some cur) =>
    let v := val ||| (cur &&& mask)
    let w := m.write reg v
    if w < 0 then (w, [BusOp.read reg, BusOp.write reg v])
    else (0, [BusOp.read reg, BusOp.write reg v])

/-- A concrete register bus: every register currently holds `0x41`, and all
reads and writes succeed. -/
def regmapAll41 : Regmap where
  read := fun _ => (0, 0x41)
  write := fun _ _ => 0

/-! ## Plain override-sequence player (`eusb2_repeater_update_seq`,
lines 221-231) and its probe-time validation (lines 651-678)

The plain player loops `for (i = 0; i < cnt; i += 2)` and calls
`eusb2_i2c_write_reg(er, seq[i+1], 0xFF, seq[i])` for each pair. We model it
by the list of `(reg, mask, val)` argument triples passed to
`eusb2_i2c_write_reg`, in call order. The loop is written with an explicit
fuel argument (initially `cnt`, an upper bound on the iteration count, since
`i` grows by 2 each iteration) so that the definition is structurally
recursive and evaluable. -/

def updateSeqFrom (seq : List Nat) (cnt : Nat) : Nat → Nat → List (Nat × Nat × Nat)
  | 0, _ => []
  | fuel + 1, i =>
    if i < cnt then
      (seq.getD (i + 1) 0, 255, seq.getD i 0) :: updateSeqFrom seq cnt fuel (i + 2)
    else []

/-- The `(reg, mask, val)` triples the plain `eusb2_repeater_update_seq`
passes to `eusb2_i2c_write_reg`, in order, for array `seq` and count `cnt`. -/
def eusb2_repeater_update_seq (seq : List Nat) (cnt : Nat) : List (Nat × Nat × Nat) :=
  updateSeqFrom seq cnt cnt 0

/-- Probe-time handling of `qcom,param-override-seq` (lines 651-678): if the
property is present (`num_elem > 0`) and its element count is odd, probing
fails with `-EINVAL` before any register I/O; otherwise the count is stored
into the `u8` field `param_override_seq_cnt` (truncating modulo 256). -/
def attachPlainOverride (num_elem : Nat) : Except Int Nat :=
  if 0 < num_elem then
    if num_elem % 2 = 1 then Except.error (-EINVAL)
    else Except.ok (num_elem % 256)
  else Except.ok 0

/-- The attach-then-init pipeline for the plain override array: validate the
array length at probe time, then (at init) run the plain player with the
stored count, yielding the list of `eusb2_i2c_write_reg` argument triples. -/
def plainOverridePipeline (seq : List Nat) : Except Int (List (Nat × Nat × Nat)) :=
  match attachPlainOverride seq.length with
  | Except.error e => Except.error e
  | Except.ok cnt => Except.ok (eusb2_repeater_update_seq seq cnt)

/-! ## Host/strided override decoder (`eusb2_repeater_update_seq` under
CONFIG_USB_NOTIFIER, lines 162-181)

The host-role decoder does `cnt /= 4;` and then loops
`for (i = 0; i < cnt; i = i+2)`, accessing `seq[i*4+7]` (address byte) and
`seq[i*4+3]` (value byte). `hostSeqAccessedIndices len` is the list of raw
byte indices the loop accesses for an array of `len` bytes, in loop order.
The loop is again written with fuel (initially `len / 4`, an upper bound on
the iteration count). -/

def hostSeqIndicesFrom (cnt : Nat) : Nat → Nat → List Nat
  | 0, _ => []
  | fuel + 1, i =>
    if i < cnt then
      (4 * i + 3) :: (4 * i + 7) :: hostSeqIndicesFrom cnt fuel (i + 2)
    else []

def hostSeqAccessedIndices (len : Nat) : List Nat :=
  hostSeqIndicesFrom (len / 4) (len / 4) 0

/-! ## Tuning buffer (`CONFIG_USB_PHY_TUNING_QCOM` block, lines 69-391)

`eusb2_repeater_type` is the chip-variant enum. The tuning buffer is modelled
as the list of live entries `tune_buf[0] .. tune_buf[tune_buf_cnt-1]`, each a
`(address, value)` pair of bytes; `tune_buf_cnt` is the list's length.
Regmap results are supplied by oracles; every regmap call made is recorded as
a `BusOp` in call order. -/

inductive eusb2_repeater_type
  | TI_REPEATER
  | NXP_REPEATER
  deriving DecidableEq

def tune_map_nxp : List Nat :=
  [0x01, 0x02, 0x03, 0x04, 0x05, 0x06, 0x07, 0x08, 0x09, 0x0A, 0x0D, 0x0F,
   0x10, 0x13, 0x14, 0x15, 0x16]

def tune_map_ti : List Nat :=
  [0x00, 0x40, 0x50, 0x51, 0xB0, 0xB2, 0xB3, 0xB4, 0xB6, 0xB7, 0xA3, 0xA4]

/-- The register-address table `eusb2_repeater_tune_show` iterates for the
bound variant. -/
def tuneMapOf (typ : eusb2_repeater_type) : List Nat :=
  if typ = eusb2_repeater_type.NXP_REPEATER then tune_map_nxp else tune_map_ti

/-! ### `eusb2_repeater_tune_set` (apply_all, lines 243-276)

Each entry's write loop `for (j = 0; j < 3; j++)` retries `regmap_write`
until a non-negative result, at most 3 attempts; the read-back loop does the
same with `regmap_read`. The oracle `res : Nat → Int` gives the result of
attempt `j` of the loop; `wres i j` / `rres i j` are the results for entry
index `i`, attempt `j`. -/

/-- Trace of the write-retry loop for one entry: the write is attempted until
the first attempt with a non-negative result, at most 3 times. -/
def retryWrite (reg val : Nat) (res : Nat → Int) : List BusOp :=
  if ¬ res 0 < 0 then [BusOp.write reg val]
  else if ¬ res 1 < 0 then [BusOp.write reg val, BusOp.write reg val]
  else [BusOp.write reg val, BusOp.write reg val, BusOp.write reg val]

/-- Trace of the read-back retry loop for one entry. -/
def retryRead (reg : Nat) (res : Nat → Int) : List BusOp :=
  if ¬ res 0 < 0 then [BusOp.read reg]
  else if ¬ res 1 < 0 then [BusOp.read reg, BusOp.read reg]
  else [BusOp.read reg, BusOp.read reg, BusOp.read reg]

/-- The loop body of `eusb2_repeater_tune_set`, from entry index `i` on. The
skip test (client role and NXP variant and entry `(0x02, 0x03)`) sits at the
top of the write-retry loop and `break`s out of it before any write, so a
skipped entry contributes no write; the read-back loop runs for every entry
regardless. -/
def tuneSetFrom (isHost : Bool) (typ : eusb2_repeater_type)
    (wres rres : Nat → Nat → Int) : Nat → List (Nat × Nat) → List BusOp
  | _, [] => []
  | i, e :: rest =>
    (if isHost = false ∧ typ = eusb2_repeater_type.NXP_REPEATER ∧
        e.1 = 0x2 ∧ e.2 = 0x03 then []
     else retryWrite e.1 e.2 (wres i)) ++
    retryRead e.1 (rres i) ++
    tuneSetFrom isHost typ wres rres (i + 1) rest

/-- `eusb2_repeater_tune_set()`: the full regmap-call trace of an apply_all
pass over buffer `buf` with role `isHost` and variant `typ`. -/
def eusb2_repeater_tune_set (isHost : Bool) (typ : eusb2_repeater_type)
    (buf : List (Nat × Nat)) (wres rres : Nat → Nat → Int) : List BusOp :=
  tuneSetFrom isHost typ wres rres 0 buf

/-- Number of attempts the 3-attempt retry loop makes under result oracle
`res`: it stops at the first non-negative result, after at most 3 attempts. -/
def writeAttempts (res : Nat → Int) : Nat :=
  if ¬ res 0 < 0 then 1 else if ¬ res 1 < 0 then 2 else 3

def isWriteOp : BusOp → Bool
  | BusOp.write _ _ => true
  | BusOp.read _ => false

/-! ### `eusb2_repeater_tune_store` (insert_or_update, lines 317-379)

The C function makes at most one `regmap_write` and one `regmap_read` per
call; `wRes` and `rRes` are the results the bus would return for them.
The result of a call is either `err e` (the C function returns the negative
error `e`) or `ok` (it returns `size`). -/

inductive StoreResult
  | err (e : Int)
  | ok
  deriving DecidableEq

/-- The update scan `for (i = 0; i < ter->tune_buf_cnt; i++)`: find the first
entry whose address equals `reg`. If found (`some`), perform the update path:
write once (failure returns the error with the buffer unchanged), update the
stored value, read back once (failure returns the error, with the value
already updated), else return ok. `none` means the scan fell through. -/
def tune_store_update (reg val : Nat) (wRes rRes : Int) :
    List (Nat × Nat) → Option (List (Nat × Nat) × StoreResult × List BusOp)
  | [] => none
  | e :: rest =>
    if e.1 = reg then
      some
        (if wRes < 0 then (e :: rest, StoreResult.err wRes, [BusOp.write reg val])
         else if rRes < 0 then
           ((reg, val) :: rest, StoreResult.err rRes,
            [BusOp.write reg val, BusOp.read reg])
         else
           ((reg, val) :: rest, StoreResult.ok,
            [BusOp.write reg val, BusOp.read reg]))
    else
      match tune_store_update reg val wRes rRes rest with
      | none => none
      | some (buf', res, tr) => some (e :: buf', res, tr)

/-- `eusb2_repeater_tune_store`: update an existing entry if the address is
present; otherwise, if the buffer is not full, write once (failure returns
the error), read back once (failure returns the error, and the count is not
incremented so the new entry is not live), else append the entry; if the
buffer is full, log and return ok without any register I/O. -/
def eusb2_repeater_tune_store (buf : List (Nat × Nat)) (reg val : Nat)
    (wRes rRes : Int) : List (Nat × Nat) × StoreResult × List BusOp :=
  match tune_store_update reg val wRes rRes buf with
  | some out => out
  | none =>
    if buf.length < TUNE_BUF_COUNT then
      if wRes < 0 then (buf, StoreResult.err wRes, [BusOp.write reg val])
      else if rRes < 0 then
        (buf, StoreResult.err rRes, [BusOp.write reg val, BusOp.read reg])
      else
        (buf ++ [(reg, val)], StoreResult.ok,
         [BusOp.write reg val, BusOp.read reg])
    else (buf, StoreResult.ok, [])

/-- Fold a sequence of debug-interface store calls (each carrying the parsed
address, the parsed value, and the bus results for its write and read) over
the buffer, starting from the empty buffer created at attach. -/
def runTuneStore (calls : List (Nat × Nat × Int × Int)) : List (Nat × Nat) :=
  calls.foldl
    (fun buf c => (eusb2_repeater_tune_store buf c.1 c.2.1 c.2.2.1 c.2.2.2).1) []

/-! ### `eusb2_repeater_tune_show` (report, lines 278-315) -/

/-- Read every address of a table in order: the first read whose result is
negative aborts the walk with `none` (the C function returns the fixed
failure text instead of the accumulated table). Returns the optional table of
`(address, value)` lines and the trace of regmap reads made. -/
def readTuneMap (rd : Nat → Int × Nat) :
    List Nat → Option (List (Nat × Nat)) × List BusOp
  | [] => (some [], [])
  | a :: rest =>
    if (rd a).1 < 0 then (none, [BusOp.read a])
    else
      match readTuneMap rd rest with
      | (none, tr) => (none, BusOp.read a :: tr)
      | (some lines, tr) => (some ((a, (rd a).2) :: lines), BusOp.read a :: tr)

/-- `eusb2_repeater_tune_show`: walk the bound variant's register table. -/
def eusb2_repeater_tune_show (typ : eusb2_repeater_type)
    (rd : Nat → Int × Nat) : Option (List (Nat × Nat)) × List BusOp :=
  readTuneMap rd (tuneMapOf typ)

/-- Expected write trace of apply_all in NXP/client mode, phrased from the
claim: the entries other than `(0x02, 0x03)`, in original insertion order,
each contributing its write attempts. -/
def c4ExpectedWrites (buf : List (Nat × Nat)) (wres : Nat → Nat → Int) : List BusOp :=
  (buf.enum.filter (fun ie => !(ie.2.1 == 0x2 && ie.2.2 == 0x03))).flatMap
    (fun ie => List.replicate (writeAttempts (wres ie.1)) (BusOp.write ie.2.1 ie.2.2))

/-- A full 20-entry tuning buffer with addresses 100..119. -/
def tuneBufFull : List (Nat × Nat) := (List.range TUNE_BUF_COUNT).map (fun i => (100 + i, 0))

/-- A register bus on which reading address 2 fails with `-5` and every other
read succeeds with value `0x7F`. -/
def rdFailAt2 : Nat → Int × Nat := fun a => if a = 2 then (-5, 0) else (0, 0x7F)

/-- A bus-result oracle whose every write and read succeeds. -/
def busAllOk : Nat → Nat → Int := fun _ _ => 0

/-! ## Theorems -/
/-- Helper characterizing a power-up call whose first failing step is `k`:
the call returns the step's own error code for `k = 0` and `-EINVAL`
otherwise, leaves `power_enabled` false, and its regulator-call trace is the
attempted steps `0..k` followed by the undo of steps `k-1..0` in reverse. -/
theorem power_up_first_fail_spec (o : RailOp → Int) (k : Nat) (hk : k < 6)
    (hf : stepFails o k) (hs : ∀ j, j < k → ¬ stepFails o j) :
    eusb2_repeater_power o false true =
      (if k = 0 then o (upStep 0) else -EINVAL, false, failTrace k) := by
  interval_cases k
  · simp [stepFails, upStep] at hf
    simp [eusb2_repeater_power, label_err_vdd18, failTrace, upStep,
      List.range_succ, hf]
  · have h0 : ¬ stepFails o 0 := hs 0 (by omega)
    simp [stepFails, upStep] at hf h0
    simp [eusb2_repeater_power, label_put_vdd18_lpm, failTrace, upStep, undoStep,
      List.range_succ, hf, not_lt.mpr h0]
  · have h0 : ¬ stepFails o 0 := hs 0 (by omega)
    have h1 : ¬ stepFails o 1 := hs 1 (by omega)
    simp [stepFails, upStep] at hf h0 h1
    simp [eusb2_repeater_power, label_unset_vdd18, label_put_vdd18_lpm,
      label_err_vdd18, failTrace, upStep, undoStep,
      List.range_succ, hf, not_lt.mpr h0, h1]
  · have h0 : ¬ stepFails o 0 := hs 0 (by omega)
    have h1 : ¬ stepFails o 1 := hs 1 (by omega)
    have h2 : ¬ stepFails o 2 := hs 2 (by omega)
    simp [stepFails, upStep] at hf h0 h1 h2
    simp [eusb2_repeater_power, label_disable_vdd18, label_unset_vdd18,
      label_put_vdd18_lpm, label_err_vdd18, failTrace, upStep, undoStep,
      List.range_succ, hf, not_lt.mpr h0, h1, h2]
  · have h0 : ¬ stepFails o 0 := hs 0 (by omega)
    have h1 : ¬ stepFails o 1 := hs 1 (by omega)
    have h2 : ¬ stepFails o 2 := hs 2 (by omega)
    have h3 : ¬ stepFails o 3 := hs 3 (by omega)
    simp [stepFails, upStep] at hf h0 h1 h2 h3
    simp [eusb2_repeater_power, label_put_vdd3_lpm, label_disable_vdd18,
      label_unset_vdd18, label_put_vdd18_lpm, label_err_vdd18, failTrace,
      upStep, undoStep, List.range_succ, hf, not_lt.mpr h0, h1, h2, not_lt.mpr h3]
  · have h0 : ¬ stepFails o 0 := hs 0 (by omega)
    have h1 : ¬ stepFails o 1 := hs 1 (by omega)
    have h2 : ¬ stepFails o 2 := hs 2 (by omega)
    have h3 : ¬ stepFails o 3 := hs 3 (by omega)
    have h4 : ¬ stepFails o 4 := hs 4 (by omega)
    simp [stepFails, upStep] at hf h0 h1 h2 h3 h4
    simp [eusb2_repeater_power, label_unset_vdd3, label_put_vdd3_lpm,
      label_disable_vdd18, label_unset_vdd18, label_put_vdd18_lpm,
      label_err_vdd18, failTrace, upStep, undoStep,
      List.range_succ, hf, not_lt.mpr h0, h1, h2, not_lt.mpr h3, h4]

/-- C1: for every power_up() call that starts in state Off, if any of the six
ordered rail steps fails (the first failing step being step `k`), every step
completed before the failure is undone in reverse order, no later step is
attempted (the regulator-call trace is exactly the attempted steps `0..k`
followed by the undo of steps `k-1..0` in reverse), and the power state
remains Off after the call. -/
theorem claim_C1_power_up_unwind (o : RailOp → Int) (k : Nat) (hk : k < 6)
    (hf : stepFails o k) (hs : ∀ j, j < k → ¬ stepFails o j) :
    (eusb2_repeater_power o false true).2 = (false, failTrace k) := by
  rw [power_up_first_fail_spec o k hk hf hs]

theorem claim_C1_power_up_unwind_witness :
    (eusb2_repeater_power oFailSetVoltA false true).2 = (false, failTrace 1) :=
  claim_C1_power_up_unwind oFailSetVoltA 1 (by omega) (by decide)
    (by intro j hj; interval_cases j; decide)

/-- C2 counterexample: two power_up() calls whose first failing steps differ
(step 2: rail-A voltage; step 3: rail-A enable) and whose failing step's own
error code is `-5` both return `-EINVAL = -22`: the error result returned to
the caller neither carries the failing step's failure reason nor identifies
which step failed. -/
theorem claim_C2_counterexample :
    (eusb2_repeater_power oFailSetVoltA false true).1 = -22 ∧
    (eusb2_repeater_power oFailEnableA false true).1 = -22 ∧
    oFailSetVoltA (upStep 1) = -5 ∧ oFailEnableA (upStep 2) = -5 ∧
    (-22 : Int) ≠ -5 := by
  decide

/-- C2 amended: a power_up() call whose first failing step is `k` returns that
step's own error code only when `k` is the first step (`regulator_set_load` on
vdd18); a first failure at any of steps 2..6 returns `-EINVAL` uniformly,
regardless of the failing step's own error code (the step identity is reported
only through logging). -/
theorem claim_C2_failed_step_reporting (o : RailOp → Int) (k : Nat) (hk : k < 6)
    (hf : stepFails o k) (hs : ∀ j, j < k → ¬ stepFails o j) :
    (eusb2_repeater_power o false true).1 =
      if k = 0 then o (upStep 0) else -EINVAL := by
  rw [power_up_first_fail_spec o k hk hf hs]

theorem claim_C2_failed_step_reporting_witness :
    (eusb2_repeater_power oFailLoadA false true).1 =
      if 0 = 0 then oFailLoadA (upStep 0) else -EINVAL :=
  claim_C2_failed_step_reporting oFailLoadA 0 (by omega) (by decide)
    (fun j hj => absurd hj (Nat.not_lt_zero j))

theorem and_255_eq_mod (x : Nat) : x &&& 255 = x % 256 := by
  have h := Nat.and_pow_two_sub_one_eq_mod x 8
  norm_num at h
  exact h

/-- C6: for every address, mask and value, `eusb2_i2c_write_reg` first reads
the current register value and then writes `effective = value | (current &
mask)`; in particular when `mask = 0xFF` the written byte equals the value
bitwise-ORed with the register's existing contents (not a clean overwrite). -/
theorem claim_C6_write_masked (m : Regmap) (reg mask val : Nat) (r : Int)
    (v : Nat) (hread : m.read reg = (r, v)) (hok : ¬ r < 0) :
    (eusb2_i2c_write_reg m reg mask val).2 =
      [BusOp.read reg, BusOp.write reg (val ||| (v % 256 &&& mask))] ∧
    (mask = 255 →
      (eusb2_i2c_write_reg m reg mask val).2 =
        [BusOp.read reg, BusOp.write reg (val ||| v % 256)]) := by
  have hbody : eusb2_i2c_write_reg m reg mask val =
      (if m.write reg (val ||| (v % 256 &&& mask)) < 0
        then m.write reg (val ||| (v % 256 &&& mask)) else 0,
       [BusOp.read reg, BusOp.write reg (val ||| (v % 256 &&& mask))]) := by
    rw [eusb2_i2c_write_reg, eusb2_i2c_read_reg, hread]
    simp [hok]
    split <;> rfl
  refine ⟨by rw [hbody], fun hm => ?_⟩
  subst hm
  rw [hbody, and_255_eq_mod]
  simp [Nat.mod_mod_of_dvd v (dvd_refl 256)]

theorem claim_C6_write_masked_witness :
    (eusb2_i2c_write_reg regmapAll41 2 255 0xAA).2 =
      [BusOp.read 2, BusOp.write 2 (0xAA ||| (0x41 % 256 &&& 255))] ∧
    (255 = 255 →
      (eusb2_i2c_write_reg regmapAll41 2 255 0xAA).2 =
        [BusOp.read 2, BusOp.write 2 (0xAA ||| 0x41 % 256)]) :=
  claim_C6_write_masked regmapAll41 2 255 0xAA 0 0x41 rfl (by decide)

theorem updateSeqFrom_eq (seq : List Nat) (cnt : Nat) :
    ∀ fuel i, cnt ≤ i + 2 * fuel →
      updateSeqFrom seq cnt fuel i =
        (List.range ((cnt - i + 1) / 2)).map
          (fun t => (seq.getD (i + 2 * t + 1) 0, 255, seq.getD (i + 2 * t) 0)) := by
  intro fuel
  induction fuel with
  | zero =>
    intro i hle
    have h1 : (cnt - i + 1) / 2 = 0 := by omega
    simp [updateSeqFrom, h1]
  | succ fuel ih =>
    intro i hle
    by_cases h : i < cnt
    · have hcount : (cnt - i + 1) / 2 = (cnt - (i + 2) + 1) / 2 + 1 := by omega
      rw [updateSeqFrom, if_pos h, ih (i + 2) (by omega), hcount,
        List.range_succ_eq_map, List.map_cons, List.map_map]
      have hfun :
          ((fun t => (seq.getD (i + 2 * t + 1) 0, 255, seq.getD (i + 2 * t) 0)) ∘ Nat.succ)
            = fun t => (seq.getD (i + 2 + 2 * t + 1) 0, 255, seq.getD (i + 2 + 2 * t) 0) := by
        funext t
        have e1 : i + 2 * (t + 1) + 1 = i + 2 + 2 * t + 1 := by ring
        have e2 : i + 2 * (t + 1) = i + 2 + 2 * t := by ring
        simp [Function.comp, Nat.succ_eq_add_one, e1, e2]
      rw [hfun]
      norm_num
    · have h1 : (cnt - i + 1) / 2 = 0 := by omega
      simp [updateSeqFrom, if_neg h, h1]

theorem update_seq_calls (seq : List Nat) (cnt : Nat) :
    eusb2_repeater_update_seq seq cnt =
      (List.range ((cnt + 1) / 2)).map
        (fun t => (seq.getD (2 * t + 1) 0, 255, seq.getD (2 * t) 0)) := by
  rw [eusb2_repeater_update_seq, updateSeqFrom_eq seq cnt cnt 0 (by omega)]
  simp

set_option maxRecDepth 4000 in
/-- C5 counterexample: the all-zero plain override array of even length
256 = 2 * 128 is accepted by the probe-time validation, but the stored count
truncates to a `u8` as 0, so zero register writes are performed instead of
the 128 the claim requires. -/
theorem claim_C5_counterexample :
    (List.replicate 256 (0 : Nat)).length = 2 * 128 ∧
    plainOverridePipeline (List.replicate 256 (0 : Nat)) = Except.ok [] ∧
    ([] : List (Nat × Nat × Nat)).length ≠ 128 := by
  refine ⟨by rw [List.length_replicate], ?_, by simp⟩
  rfl

/-- C5 amended: for every plain override byte array of even length `2n` with
`2n < 256` (the count is stored in a `u8`), the player performs exactly `n`
register writes, in array order, interpreting consecutive bytes as
`(value, address)` pairs and applying each via
`eusb2_i2c_write_reg(address, 0xFF, value)`; an odd-length array is rejected
with `-EINVAL` at probe time, before any register I/O occurs (the pipeline
produces no write triples); an even-length array of 256 bytes or more has its
stored count truncated modulo 256, so fewer writes occur. -/
theorem claim_C5_plain_override (seq : List Nat) (n : Nat) :
    (seq.length = 2 * n → 2 * n < 256 →
      plainOverridePipeline seq =
        Except.ok ((List.range n).map
          (fun t => (seq.getD (2 * t + 1) 0, 255, seq.getD (2 * t) 0)))) ∧
    (seq.length % 2 = 1 → plainOverridePipeline seq = Except.error (-EINVAL)) := by
  constructor
  · intro hlen hlt
    have hattach : attachPlainOverride seq.length = Except.ok (2 * n) := by
      rcases Nat.eq_zero_or_pos n with hn | hn
      · subst hn
        rw [attachPlainOverride, hlen]
        norm_num
      · have h1 : 0 < 2 * n := by omega
        have h2 : ¬ (2 * n) % 2 = 1 := by omega
        have h3 : (2 * n) % 256 = 2 * n := by omega
        rw [attachPlainOverride, hlen, if_pos h1, if_neg h2, h3]
    rw [plainOverridePipeline, hattach]
    show Except.ok (eusb2_repeater_update_seq seq (2 * n)) = _
    rw [update_seq_calls]
    have h4 : (2 * n + 1) / 2 = n := by omega
    rw [h4]
  · intro hodd
    have h1 : 0 < seq.length := by omega
    have hattach : attachPlainOverride seq.length = Except.error (-EINVAL) := by
      rw [attachPlainOverride, if_pos h1, if_pos hodd]
    rw [plainOverridePipeline, hattach]

theorem claim_C5_plain_override_witness :
    plainOverridePipeline [0xAA, 0x02, 0xBB, 0x05] =
      Except.ok [(0x02, 255, 0xAA), (0x05, 255, 0xBB)] ∧
    plainOverridePipeline [0x01, 0x02, 0x03] = Except.error (-EINVAL) := by
  constructor
  · have h := (claim_C5_plain_override [0xAA, 0x02, 0xBB, 0x05] 2).1 (by decide) (by decide)
    rw [h]
    rfl
  · exact (claim_C5_plain_override [0x01, 0x02, 0x03] 0).2 (by decide)

theorem mem_hostSeqIndicesFrom (cnt : Nat) :
    ∀ fuel i, cnt ≤ i + 2 * fuel →
      ∀ idx, idx ∈ hostSeqIndicesFrom cnt fuel i ↔
        ∃ t, i + 2 * t < cnt ∧
          (idx = 4 * (i + 2 * t) + 3 ∨ idx = 4 * (i + 2 * t) + 7) := by
  intro fuel
  induction fuel with
  | zero =>
    intro i hle idx
    simp only [hostSeqIndicesFrom, List.not_mem_nil, false_iff, not_exists]
    intro t ht
    omega
  | succ fuel ih =>
    intro i hle idx
    by_cases h : i < cnt
    · rw [hostSeqIndicesFrom, if_pos h]
      simp only [List.mem_cons, ih (i + 2) (by omega) idx]
      constructor
      · rintro (rfl | rfl | ⟨t, ht, hi⟩)
        · exact ⟨0, by omega, Or.inl (by ring)⟩
        · exact ⟨0, by omega, Or.inr (by ring)⟩
        · refine ⟨t + 1, by omega, ?_⟩
          rcases hi with hi | hi
          · exact Or.inl (by omega)
          · exact Or.inr (by omega)
      · rintro ⟨t, ht, hi⟩
        rcases t with _ | t
        · rcases hi with rfl | rfl
          · exact Or.inl (by ring)
          · exact Or.inr (Or.inl (by ring))
        · refine Or.inr (Or.inr ⟨t, by omega, ?_⟩)
          rcases hi with hi | hi
          · exact Or.inl (by omega)
          · exact Or.inr (by omega)
    · rw [hostSeqIndicesFrom, if_neg h]
      simp only [List.not_mem_nil, false_iff, not_exists]
      intro t ht
      omega

/-- C10: for every host-role override array length `len` that is congruent to
4 modulo 8 (such arrays are even-length and hence accepted by the probe-time
validation), the strided decoder's last processed tuple index is
`k = len/4 - 1` and its address-byte access `4*k + 7` is at an index greater
than or equal to `len`, i.e. out of bounds (every accessed index is at most
`4*k + 7`, so this tuple is indeed the last); for every `len` that is a
multiple of 8, every accessed index (`4*k + 3` and `4*k + 7` for each
processed tuple index `k`) is strictly less than `len`. -/
theorem claim_C10_strided_oob (len : Nat) :
    (len % 8 = 4 →
      (4 * (len / 4 - 1) + 7) ∈ hostSeqAccessedIndices len ∧
      len ≤ 4 * (len / 4 - 1) + 7 ∧
      ∀ idx ∈ hostSeqAccessedIndices len, idx ≤ 4 * (len / 4 - 1) + 7) ∧
    (len % 8 = 0 → ∀ idx ∈ hostSeqAccessedIndices len, idx < len) := by
  have hchar := mem_hostSeqIndicesFrom (len / 4) (len / 4) 0 (by omega)
  constructor
  · intro h8
    refine ⟨?_, by omega, ?_⟩
    · rw [hostSeqAccessedIndices, hchar]
      refine ⟨len / 8, by omega, Or.inr (by omega)⟩
    · intro idx hidx
      rw [hostSeqAccessedIndices, hchar] at hidx
      obtain ⟨t, ht, hi⟩ := hidx
      omega
  · intro h8 idx hidx
    rw [hostSeqAccessedIndices, hchar] at hidx
    obtain ⟨t, ht, hi⟩ := hidx
    omega

theorem claim_C10_strided_oob_witness :
    (4 * (4 / 4 - 1) + 7) ∈ hostSeqAccessedIndices 4 ∧
    (4 : Nat) ≤ 4 * (4 / 4 - 1) + 7 ∧
    (3 : Nat) < 8 ∧ (7 : Nat) < 8 :=
  ⟨((claim_C10_strided_oob 4).1 (by decide)).1,
   ((claim_C10_strided_oob 4).1 (by decide)).2.1,
   (claim_C10_strided_oob 8).2 (by decide) 3 (by decide),
   (claim_C10_strided_oob 8).2 (by decide) 7 (by decide)⟩

theorem retryWrite_eq_replicate (reg val : Nat) (res : Nat → Int) :
    retryWrite reg val res = List.replicate (writeAttempts res) (BusOp.write reg val) := by
  unfold retryWrite writeAttempts
  split_ifs <;> rfl

theorem filter_isWriteOp_retryWrite (reg val : Nat) (res : Nat → Int) :
    (retryWrite reg val res).filter isWriteOp = retryWrite reg val res := by
  unfold retryWrite
  split_ifs <;> rfl

theorem filter_isWriteOp_retryRead (reg : Nat) (res : Nat → Int) :
    (retryRead reg res).filter isWriteOp = [] := by
  unfold retryRead
  split_ifs <;> rfl

theorem tuneSetFrom_filter_writes (wres rres : Nat → Nat → Int)
    (buf : List (Nat × Nat)) :
    ∀ i, (tuneSetFrom false eusb2_repeater_type.NXP_REPEATER wres rres i buf).filter isWriteOp
      = ((List.enumFrom i buf).filter
          (fun ie => !(ie.2.1 == 0x2 && ie.2.2 == 0x03))).flatMap
          (fun ie => List.replicate (writeAttempts (wres ie.1)) (BusOp.write ie.2.1 ie.2.2)) := by
  induction buf with
  | nil => intro i; simp [tuneSetFrom]
  | cons e rest ih =>
    intro i
    rw [tuneSetFrom, List.enumFrom_cons, List.filter_append, List.filter_append,
      filter_isWriteOp_retryRead, ih (i + 1)]
    by_cases h : e.1 = 0x2 ∧ e.2 = 0x03
    · rw [if_pos ⟨rfl, rfl, h.1, h.2⟩]
      have hpred : (fun (ie : Nat × Nat × Nat) => !(ie.2.1 == 0x2 && ie.2.2 == 0x03)) (i, e) = false := by
        simp [h.1, h.2]
      rw [List.filter_cons_of_neg (by simpa using hpred)]
      simp
    · have hcond : ¬ (false = false ∧ eusb2_repeater_type.NXP_REPEATER = eusb2_repeater_type.NXP_REPEATER ∧
          e.1 = 0x2 ∧ e.2 = 0x03) := by
        intro hc
        exact h ⟨hc.2.2.1, hc.2.2.2⟩
      rw [if_neg hcond, filter_isWriteOp_retryWrite]
      have hpred : (fun (ie : Nat × Nat × Nat) => !(ie.2.1 == 0x2 && ie.2.2 == 0x03)) (i, e) = true := by
        simp only [Bool.not_eq_true']
        rw [Bool.eq_false_iff]
        intro hb
        simp only [Bool.and_eq_true, beq_iff_eq] at hb
        exact h hb
      rw [List.filter_cons_of_pos (by simpa using hpred), List.flatMap_cons,
        retryWrite_eq_replicate]
      simp

/-- C4: for every apply_all pass on an NXP-variant device in client role, the
write operations issued to the bus are exactly those of the buffer entries
different from `(0x02, 0x03)`, in original insertion order — the entry
`(0x02, 0x03)`, if present, is skipped and never written — with each entry's
write attempted `writeAttempts` times; and the retry policy is "up to 3
attempts, stopping at the first success": at least 1 and at most 3 attempts
are made, every attempt before the last failed, and the loop never continues
past a successful attempt. The trace equation holds for all write and
read-back oracle outcomes, so every entry is processed regardless of the
previous entries' outcomes. -/
theorem claim_C4_apply_all_skip (buf : List (Nat × Nat))
    (wres rres : Nat → Nat → Int) :
    ((eusb2_repeater_tune_set false eusb2_repeater_type.NXP_REPEATER buf wres rres).filter
        isWriteOp = c4ExpectedWrites buf wres) ∧
    (∀ res : Nat → Int,
      1 ≤ writeAttempts res ∧ writeAttempts res ≤ 3 ∧
      (∀ j, j + 1 < writeAttempts res → res j < 0) ∧
      (∀ j, j < 3 → ¬ res j < 0 → writeAttempts res ≤ j + 1)) := by
  constructor
  · rw [eusb2_repeater_tune_set, tuneSetFrom_filter_writes wres rres buf 0,
      c4ExpectedWrites, List.enum_eq_enumFrom]
  · intro res
    unfold writeAttempts
    split_ifs with h1 h2 <;>
      refine ⟨by omega, by omega, fun j hj => ?_, fun j hj hs => ?_⟩ <;>
      rcases j with _ | _ | j <;> (try simp only [Nat.zero_add] at *) <;> omega

theorem tune_store_update_eq_none_iff (reg val : Nat) (w r : Int) :
    ∀ buf, tune_store_update reg val w r buf = none ↔ ∀ e ∈ buf, e.1 ≠ reg := by
  intro buf
  induction buf with
  | nil => simp [tune_store_update]
  | cons e rest ih =>
    rw [tune_store_update]
    by_cases he : e.1 = reg
    · rw [if_pos he]
      constructor
      · intro h
        exact absurd h (by simp)
      · intro hall
        exact ((hall e (List.mem_cons_self e rest)) he).elim
    · rw [if_neg he]
      cases hu : tune_store_update reg val w r rest with
      | none =>
        constructor
        · intro _ x hx
          rcases List.mem_cons.mp hx with rfl | hx'
          · exact he
          · exact (ih.mp hu) x hx'
        · intro _
          rfl
      | some out =>
        constructor
        · intro h
          exact absurd h (by simp)
        · intro hall
          have hn : tune_store_update reg val w r rest = none :=
            ih.mpr (fun x hx => hall x (List.mem_cons_of_mem e hx))
          rw [hu] at hn
          exact absurd hn (by simp)

theorem tune_store_update_some_spec (reg val : Nat) (w r : Int) :
    ∀ buf buf' res tr,
      tune_store_update reg val w r buf = some (buf', res, tr) →
      buf'.length = buf.length ∧
      tr = (if w < 0 then [BusOp.write reg val]
            else [BusOp.write reg val, BusOp.read reg]) ∧
      res = (if w < 0 then StoreResult.err w
             else if r < 0 then StoreResult.err r else StoreResult.ok) ∧
      (¬ w < 0 → ∃ pre e post, buf = pre ++ e :: post ∧
        (∀ x ∈ pre, x.1 ≠ reg) ∧ e.1 = reg ∧
        buf' = pre ++ (reg, val) :: post) := by
  intro buf
  induction buf with
  | nil =>
    intro buf' res tr h
    simp [tune_store_update] at h
  | cons e rest ih =>
    intro buf' res tr h
    rw [tune_store_update] at h
    by_cases he : e.1 = reg
    · rw [if_pos he] at h
      split_ifs at h with hw hr
      · simp only [Option.some.injEq, Prod.mk.injEq] at h
        obtain ⟨hb, hres, htr⟩ := h
        refine ⟨by rw [← hb], ?_, ?_, fun hnw => absurd hw hnw⟩
        · rw [← htr, if_pos hw]
        · rw [← hres, if_pos hw]
      · simp only [Option.some.injEq, Prod.mk.injEq] at h
        obtain ⟨hb, hres, htr⟩ := h
        refine ⟨by rw [← hb]; simp, ?_, ?_, fun _ => ?_⟩
        · rw [← htr, if_neg hw]
        · rw [← hres, if_neg hw, if_pos hr]
        · exact ⟨[], e, rest, by simp, by simp, he, by rw [← hb]; simp⟩
      · simp only [Option.some.injEq, Prod.mk.injEq] at h
        obtain ⟨hb, hres, htr⟩ := h
        refine ⟨by rw [← hb]; simp, ?_, ?_, fun _ => ?_⟩
        · rw [← htr, if_neg hw]
        · rw [← hres, if_neg hw, if_neg hr]
        · exact ⟨[], e, rest, by simp, by simp, he, by rw [← hb]; simp⟩
    · rw [if_neg he] at h
      cases hu : tune_store_update reg val w r rest with
      | none =>
        rw [hu] at h
        simp at h
      | some out =>
        rw [hu] at h
        rcases out with ⟨b', res', tr'⟩
        simp only [Option.some.injEq, Prod.mk.injEq] at h
        obtain ⟨hb, hres, htr⟩ := h
        obtain ⟨hlen, htr', hres', hupd⟩ := ih b' res' tr' hu
        refine ⟨by rw [← hb]; simp [hlen], by rw [← htr, htr'],
          by rw [← hres, hres'], fun hnw => ?_⟩
        obtain ⟨pre, e0, post, hbuf, hpre, he0, hb'⟩ := hupd hnw
        refine ⟨e :: pre, e0, post, by rw [hbuf, List.cons_append], ?_, he0,
          by rw [← hb, hb', List.cons_append]⟩
        intro x hx
        rcases List.mem_cons.mp hx with rfl | hx'
        · exact he
        · exact hpre x hx'

theorem tune_store_length_le (buf : List (Nat × Nat)) (reg val : Nat)
    (w r : Int) (h : buf.length ≤ TUNE_BUF_COUNT) :
    (eusb2_repeater_tune_store buf reg val w r).1.length ≤ TUNE_BUF_COUNT := by
  rw [eusb2_repeater_tune_store]
  cases hu : tune_store_update reg val w r buf with
  | some out =>
    rcases out with ⟨buf', res, tr⟩
    have hlen := (tune_store_update_some_spec reg val w r buf buf' res tr hu).1
    simpa [hlen] using h
  | none =>
    split_ifs with hlt hw hr <;> simp_all
    omega

/-- C3 counterexample: an accepted insert call (empty buffer, address 4,
value 5) whose register write succeeds (`wRes = 0`) but whose read-back fails
(`rRes = -5`) makes exactly one write attempt and exactly one read attempt —
not up to three of each — and the read-back failure makes the call return the
error `-5` instead of success. -/
theorem claim_C3_counterexample :
    eusb2_repeater_tune_store [] 4 5 0 (-5) =
      ([], StoreResult.err (-5), [BusOp.write 4 5, BusOp.read 4]) ∧
    StoreResult.err (-5) ≠ StoreResult.ok := by
  constructor
  · rfl
  · simp

/-- C3 amended: for every accepted insert_or_update call (the address is
already present or the buffer is not full), the register write is attempted
exactly once: if it fails, the call returns that error and no read-back is
attempted; if it succeeds, a single read-back follows, and a read-back
failure does not undo the register write (the write remains in the bus trace,
which contains no compensating operation) but does cause the call to return
the read error. -/
theorem claim_C3_write_through (buf : List (Nat × Nat)) (reg val : Nat)
    (w r : Int)
    (hacc : (∃ e ∈ buf, e.1 = reg) ∨ buf.length < TUNE_BUF_COUNT) :
    (eusb2_repeater_tune_store buf reg val w r).2.2 =
      (if w < 0 then [BusOp.write reg val]
       else [BusOp.write reg val, BusOp.read reg]) ∧
    (eusb2_repeater_tune_store buf reg val w r).2.1 =
      (if w < 0 then StoreResult.err w
       else if r < 0 then StoreResult.err r else StoreResult.ok) ∧
    BusOp.write reg val ∈ (eusb2_repeater_tune_store buf reg val w r).2.2 := by
  rw [eusb2_repeater_tune_store]
  cases hu : tune_store_update reg val w r buf with
  | some out =>
    rcases out with ⟨buf', res, tr⟩
    obtain ⟨_, htr, hres, _⟩ :=
      tune_store_update_some_spec reg val w r buf buf' res tr hu
    refine ⟨htr, hres, ?_⟩
    rw [htr]
    split_ifs <;> simp
  | none =>
    have habs : ∀ e ∈ buf, e.1 ≠ reg :=
      (tune_store_update_eq_none_iff reg val w r buf).mp hu
    have hlt : buf.length < TUNE_BUF_COUNT := by
      rcases hacc with ⟨e, he, he1⟩ | hlt
      · exact absurd he1 (habs e he)
      · exact hlt
    rw [if_pos hlt]
    split_ifs with hw hr <;> simp

theorem claim_C3_write_through_witness :
    (eusb2_repeater_tune_store [] 4 5 0 (-7)).2.2 =
      (if (0 : Int) < 0 then [BusOp.write 4 5]
       else [BusOp.write 4 5, BusOp.read 4]) ∧
    (eusb2_repeater_tune_store [] 4 5 0 (-7)).2.1 =
      (if (0 : Int) < 0 then StoreResult.err 0
       else if (-7 : Int) < 0 then StoreResult.err (-7) else StoreResult.ok) ∧
    BusOp.write 4 5 ∈ (eusb2_repeater_tune_store [] 4 5 0 (-7)).2.2 :=
  claim_C3_write_through [] 4 5 0 (-7) (Or.inr (by decide))

/-- C7 counterexample: a call with address 4 already present (stored value 5)
whose register write fails (`wRes = -5`) leaves the stored value at 5 instead
of updating it to the requested 7, refuting the unconditional "updates that
entry's stored value". -/
theorem claim_C7_counterexample :
    (eusb2_repeater_tune_store [(4, 5)] 4 7 (-5) 0).1 = [(4, 5)] ∧
    ([(4, 5)] : List (Nat × Nat)) ≠ [(4, 7)] := by
  constructor
  · rfl
  · simp

/-- C7 amended: for every sequence of insert_or_update calls starting from
the empty buffer, the entry count never exceeds 20; a call whose address is
already present never changes the count, and updates that entry's stored
value provided the write-through register write succeeds (on write failure
the stored value is unchanged and the error is returned); a call with a new
address when the count is already 20 leaves the buffer unchanged and returns
success without any register I/O. -/
theorem claim_C7_buffer_invariants :
    (∀ calls : List (Nat × Nat × Int × Int),
      (runTuneStore calls).length ≤ TUNE_BUF_COUNT) ∧
    (∀ (buf : List (Nat × Nat)) (reg val : Nat) (w r : Int),
      (∃ e ∈ buf, e.1 = reg) →
      (eusb2_repeater_tune_store buf reg val w r).1.length = buf.length ∧
      (¬ w < 0 → ∃ pre e post, buf = pre ++ e :: post ∧
        (∀ x ∈ pre, x.1 ≠ reg) ∧ e.1 = reg ∧
        (eusb2_repeater_tune_store buf reg val w r).1 = pre ++ (reg, val) :: post)) ∧
    (∀ (buf : List (Nat × Nat)) (reg val : Nat) (w r : Int),
      buf.length = TUNE_BUF_COUNT → (∀ e ∈ buf, e.1 ≠ reg) →
      eusb2_repeater_tune_store buf reg val w r = (buf, StoreResult.ok, [])) := by
  refine ⟨?_, ?_, ?_⟩
  · intro calls
    rw [runTuneStore]
    have hgen : ∀ (cs : List (Nat × Nat × Int × Int)) (buf : List (Nat × Nat)),
        buf.length ≤ TUNE_BUF_COUNT →
        (cs.foldl (fun b c =>
          (eusb2_repeater_tune_store b c.1 c.2.1 c.2.2.1 c.2.2.2).1) buf).length
            ≤ TUNE_BUF_COUNT := by
      intro cs
      induction cs with
      | nil => intro buf h; simpa using h
      | cons c rest ih =>
        intro buf h
        rw [List.foldl_cons]
        exact ih _ (tune_store_length_le buf c.1 c.2.1 c.2.2.1 c.2.2.2 h)
    exact hgen calls [] (by simp [TUNE_BUF_COUNT])
  · intro buf reg val w r hpresent
    cases hu : tune_store_update reg val w r buf with
    | none =>
      have habs := (tune_store_update_eq_none_iff reg val w r buf).mp hu
      obtain ⟨e, he, he1⟩ := hpresent
      exact absurd he1 (habs e he)
    | some out =>
      rcases out with ⟨buf', res, tr⟩
      obtain ⟨hlen, _, _, hupd⟩ :=
        tune_store_update_some_spec reg val w r buf buf' res tr hu
      have hout : eusb2_repeater_tune_store buf reg val w r = (buf', res, tr) := by
        rw [eusb2_repeater_tune_store, hu]
      rw [hout]
      exact ⟨hlen, hupd⟩
  · intro buf reg val w r hfull habs
    have hu : tune_store_update reg val w r buf = none :=
      (tune_store_update_eq_none_iff reg val w r buf).mpr habs
    rw [eusb2_repeater_tune_store, hu]
    rw [if_neg (by omega)]

theorem claim_C7_buffer_invariants_witness :
    (runTuneStore [(4, 5, 0, 0), (4, 7, 0, 0)]).length ≤ TUNE_BUF_COUNT ∧
    (eusb2_repeater_tune_store [(4, 5)] 4 7 0 0).1.length = ([(4, 5)] : List (Nat × Nat)).length ∧
    eusb2_repeater_tune_store tuneBufFull 9 9 0 0 = (tuneBufFull, StoreResult.ok, []) :=
  ⟨claim_C7_buffer_invariants.1 [(4, 5, 0, 0), (4, 7, 0, 0)],
   (claim_C7_buffer_invariants.2.1 [(4, 5)] 4 7 0 0 (by decide)).1,
   claim_C7_buffer_invariants.2.2 tuneBufFull 9 9 0 0 (by decide) (by decide)⟩

theorem readTuneMap_ok (rd : Nat → Int × Nat) :
    ∀ t, (∀ a ∈ t, ¬ (rd a).1 < 0) →
      readTuneMap rd t =
        (some (t.map fun a => (a, (rd a).2)), t.map BusOp.read) := by
  intro t
  induction t with
  | nil => intro _; rfl
  | cons a rest ih =>
    intro h
    have htail := ih (fun b hb => h b (List.mem_cons_of_mem a hb))
    rw [readTuneMap, if_neg (h a (List.mem_cons_self a rest)), htail]
    rfl

theorem readTuneMap_fail (rd : Nat → Int × Nat) :
    ∀ pre a post, (∀ b ∈ pre, ¬ (rd b).1 < 0) → (rd a).1 < 0 →
      readTuneMap rd (pre ++ a :: post) = (none, (pre ++ [a]).map BusOp.read) := by
  intro pre
  induction pre with
  | nil =>
    intro a post _ hf
    rw [List.nil_append, readTuneMap, if_pos hf]
    rfl
  | cons b rest ih =>
    intro a post hpre hf
    rw [List.cons_append, readTuneMap,
      if_neg (hpre b (List.mem_cons_self b rest)),
      ih a post (fun x hx => hpre x (List.mem_cons_of_mem b hx)) hf]
    rfl

/-- C8: the bound variant's fixed table has 17 entries for NXP and 12 for TI;
when the table splits as `pre ++ a :: post` with every read before `a`
succeeding and the read of `a` failing, report() aborts at `a`: the bus trace
is exactly the in-order reads of `pre` and `a` (no later address is read) and
the result is the failure marker `none`, never a partial table; and for a bus
on which every table read succeeds, report() reads every address in table
order and returns the full table. -/
theorem claim_C8_report_abort (typ : eusb2_repeater_type) (rd : Nat → Int × Nat)
    (pre : List Nat) (a : Nat) (post : List Nat)
    (hsplit : tuneMapOf typ = pre ++ a :: post)
    (hpre : ∀ b ∈ pre, ¬ (rd b).1 < 0) (hfail : (rd a).1 < 0) :
    tune_map_nxp.length = 17 ∧ tune_map_ti.length = 12 ∧
    eusb2_repeater_tune_show typ rd = (none, (pre ++ [a]).map BusOp.read) ∧
    (∀ rd2 : Nat → Int × Nat, (∀ b ∈ tuneMapOf typ, ¬ (rd2 b).1 < 0) →
      eusb2_repeater_tune_show typ rd2 =
        (some ((tuneMapOf typ).map fun b => (b, (rd2 b).2)),
         (tuneMapOf typ).map BusOp.read)) := by
  refine ⟨rfl, rfl, ?_, fun rd2 h2 => ?_⟩
  · rw [eusb2_repeater_tune_show, hsplit]
    exact readTuneMap_fail rd pre a post hpre hfail
  · rw [eusb2_repeater_tune_show]
    exact readTuneMap_ok rd2 (tuneMapOf typ) h2

theorem claim_C8_report_abort_witness :
    eusb2_repeater_tune_show eusb2_repeater_type.NXP_REPEATER rdFailAt2 =
      (none, [BusOp.read 1, BusOp.read 2]) := by
  have h := claim_C8_report_abort eusb2_repeater_type.NXP_REPEATER rdFailAt2
    [1] 2 [0x03, 0x04, 0x05, 0x06, 0x07, 0x08, 0x09, 0x0A, 0x0D, 0x0F, 0x10,
      0x13, 0x14, 0x15, 0x16] rfl (by decide) (by decide)
  rw [h.2.2.1]
  rfl

theorem claim_C4_apply_all_skip_witness :
    ((eusb2_repeater_tune_set false eusb2_repeater_type.NXP_REPEATER
        [(0x02, 0x03), (0x10, 0x01), (0x14, 0x02)] busAllOk busAllOk).filter isWriteOp
      = c4ExpectedWrites [(0x02, 0x03), (0x10, 0x01), (0x14, 0x02)] busAllOk) ∧
    c4ExpectedWrites [(0x02, 0x03), (0x10, 0x01), (0x14, 0x02)] busAllOk
      = [BusOp.write 0x10 0x01, BusOp.write 0x14 0x02] :=
  ⟨(claim_C4_apply_all_skip [(0x02, 0x03), (0x10, 0x01), (0x14, 0x02)] busAllOk busAllOk).1,
   by decide⟩

/-- C9: power_up() called while the state is already On, and power_down()
called while the state is already Off, each perform zero rail operations
(empty regulator-call trace), return success (0), and leave the power state
unchanged. -/
theorem claim_C9_power_idempotent (o : RailOp → Int) (b : Bool) :
    eusb2_repeater_power o b b = (0, b, []) := by
  simp [eusb2_repeater_power]

end Eusb2
